import Mathlib

/-!
# Verification of the walrs Topics Manager

A shallow embedding of `src/core/src/managers/topics_manager.rs` from the
walrs message broker, together with proofs about the behaviour of the
Topics Manager actor: topic creation, partition routing, topic lookup,
reply-channel handling and the cancellation path of its command loop.

Modelling conventions:
* Rust `HashMap<String, V>` becomes an association list with
  insert-replaces-existing semantics (`SMap`).
* `tokio::sync::mpsc::Sender<Message>` endpoints and spawned partition
  writer tasks are identified by freshly allocated numeric ids; the
  manager state carries counters for fresh ids.
* A `oneshot` reply channel is represented by a `Bool` saying whether its
  receiver is still alive; `send` on a dead channel returns an error,
  which the source code unwraps.
* Rust panics (`Option::unwrap` on `None`, `%` by zero, `Result::unwrap`
  on a failed oneshot send) become the `Except.error` side of each
  operation, tagged with the panic kind.
* `std::hash::DefaultHasher` is SipHash-1-3 with both keys zero; it is
  embedded bit-faithfully over `Nat` with explicit reduction mod `2^64`.
-/

namespace Walrs

/-! ## Association-list model of `HashMap<String, V>` -/

/-- `HashMap<String, α>`: an association list; `insert` removes any
previous binding of the key, so a key is bound at most once. -/
def SMap (α : Type) : Type := List (String × α)

instance {α : Type} [DecidableEq α] : DecidableEq (SMap α) :=
  inferInstanceAs (DecidableEq (List (String × α)))

namespace SMap

def empty {α : Type} : SMap α := []

def get? {α : Type} (m : SMap α) (k : String) : Option α :=
  match m with
  | [] => none
  | (k', v) :: rest => if k' = k then some v else get? rest k

def contains {α : Type} (m : SMap α) (k : String) : Bool :=
  (m.get? k).isSome

/-- Remove every binding of `k`. -/
def erase {α : Type} (m : SMap α) (k : String) : SMap α :=
  List.filter (fun p => decide (p.1 ≠ k)) m

/-- `HashMap::insert`: replaces any existing binding of `k`. -/
def insert {α : Type} (m : SMap α) (k : String) (v : α) : SMap α :=
  (k, v) :: m.erase k

/-- Number of bindings of `k` present in the map. -/
def count {α : Type} (m : SMap α) (k : String) : Nat :=
  List.countP (fun p => decide (p.1 = k)) m

/-- Total number of bindings in the map. -/
def size {α : Type} (m : SMap α) : Nat := List.length m

end SMap

/-! ## SipHash-1-3 (`std::hash::DefaultHasher`)

`DefaultHasher::new()` constructs a SipHasher13 with keys `(0, 0)`;
`Hasher::write` feeds raw bytes and `finish` produces a 64-bit value.
All 64-bit arithmetic is over `Nat` with explicit `% 2^64`. -/

def mask64 : Nat := 2 ^ 64

def add64 (a b : Nat) : Nat := (a + b) % mask64

def rotl64 (x n : Nat) : Nat := ((x <<< n) ||| (x >>> (64 - n))) % mask64

structure SipState where
  v0 : Nat
  v1 : Nat
  v2 : Nat
  v3 : Nat

def sipRound (s : SipState) : SipState :=
  let v0 := add64 s.v0 s.v1
  let v1 := rotl64 s.v1 13
  let v1 := v1 ^^^ v0
  let v0 := rotl64 v0 32
  let v2 := add64 s.v2 s.v3
  let v3 := rotl64 s.v3 16
  let v3 := v3 ^^^ v2
  let v2 := add64 v2 v1
  let v1 := rotl64 v1 17
  let v1 := v1 ^^^ v2
  let v2 := rotl64 v2 32
  let v0 := add64 v0 v3
  let v3 := rotl64 v3 21
  let v3 := v3 ^^^ v0
  ⟨v0, v1, v2, v3⟩

/-- One SipHash-1-3 compression step for message word `m` (c = 1 round). -/
def sipCompress (s : SipState) (m : Nat) : SipState :=
  let s := { s with v3 := s.v3 ^^^ m }
  let s := sipRound s
  { s with v0 := s.v0 ^^^ m }

/-- Little-endian value of a byte list (first byte least significant). -/
def leWord (bs : List Nat) : Nat :=
  bs.foldr (fun b acc => b + 256 * acc) 0

/-- Consume the message 8 bytes at a time, then the final word (remaining
bytes, with the total length in the top byte) and the d = 3 finalization
rounds. -/
def sipFinish (s : SipState) (len : Nat) : List Nat → Nat
  | b0 :: b1 :: b2 :: b3 :: b4 :: b5 :: b6 :: b7 :: rest =>
      sipFinish (sipCompress s (leWord [b0, b1, b2, b3, b4, b5, b6, b7])) len rest
  | tail =>
      let b := (leWord tail + (len % 256) * 2 ^ 56) % mask64
      let s := sipCompress s b
      let s := { s with v2 := s.v2 ^^^ 0xff }
      let s := sipRound (sipRound (sipRound s))
      s.v0 ^^^ s.v1 ^^^ s.v2 ^^^ s.v3

/-- `DefaultHasher::new(); hasher.write(bytes); hasher.finish()`. -/
def sipHash13 (msg : List Nat) : Nat :=
  let s : SipState :=
    ⟨0x736f6d6570736575, 0x646f72616e646f6d, 0x6c7967656e657261, 0x7465646279746573⟩
  sipFinish s msg.length msg

/-- `key.as_bytes()`: the UTF-8 bytes of a string (the byte list underlying
`String.toUTF8`). -/
def utf8Bytes (s : String) : List Nat :=
  (s.data.flatMap String.utf8EncodeChar).map (fun b => b.toNat)

/-! ## Data model -/

/-- `common::models::Topic`. Modelled from the spec: the struct lives in
the `common` crate, which is not under `src/`; §3 of the spec gives the
fields (identity `name`; `num_partitions` required to create partitions;
`replication_factor`, `retention_period`, `batch_size` advisory), and the
unit test in `topics_manager.rs` constructs exactly these five fields with
every count optional. The `unwrap()` calls in `topics_manager.rs` show
`num_partitions` is an `Option` of an unsigned integer, modelled as
`Option Nat`. -/
structure Topic where
  name : String
  num_partitions : Option Nat
  replication_factor : Option Nat
  retention_period : Option Nat
  batch_size : Option Nat
deriving DecidableEq

/-- The mutable state owned by `TopicsManager`: the topic catalog
(`topics`), the routing table (`partition_client_tx`, partition name to
channel-sender id) and the child-task registry
(`partition_manager_task_tracker`, modelled by the list of spawned but
not yet joined writer-task ids, the list of joined ids, and the closed
flag).  `next_chan` / `next_task` allocate fresh ids. -/
structure TMState where
  topics : SMap Topic
  partition_client_tx : SMap Nat
  tracker_tasks : List Nat
  joined_tasks : List Nat
  tracker_closed : Bool
  next_chan : Nat
  next_task : Nat
deriving DecidableEq

/-- The state `TopicsManager::new` starts from. -/
def initialState : TMState :=
  { topics := SMap.empty
    partition_client_tx := SMap.empty
    tracker_tasks := []
    joined_tasks := []
    tracker_closed := false
    next_chan := 0
    next_task := 0 }

deriving instance DecidableEq for Except

/-- A Rust panic inside the Topics Manager task. -/
inductive Panic where
  /-- `Option::unwrap` on `None`. -/
  | unwrapNone
  /-- integer `%` with a zero divisor. -/
  | remainderByZero
  /-- `.unwrap()` on the `Err` returned by `oneshot::Sender::send` whose
  receiver was dropped. -/
  | sendErr
deriving DecidableEq

/-- `TopicManagerCommands`.  Each command carries its `reply_tx` oneshot
sender, modelled by whether the receiving end is still alive. -/
inductive TopicManagerCommands where
  | CreateTopic (topic : Topic) (reply_open : Bool)
  | GetTopicInfo (topic_name : String) (reply_open : Bool)
  | GetPartitionManagerTx (topic_name : String) (message_key : Option String)
      (reply_open : Bool)
deriving DecidableEq

/-- A value sent back on a reply channel. -/
inductive Reply where
  /-- reply of `CreateTopic` and `GetTopicInfo`: `Option<Topic>`. -/
  | topicReply (t : Option Topic)
  /-- reply of `GetPartitionManagerTx`: `Option<Sender<Message>>`,
  the sender identified by its id. -/
  | txReply (c : Option Nat)
deriving DecidableEq

/-- Observable actions of the Topics Manager, in program order. -/
inductive Event where
  /-- routing-table registration of channel `chan` under `key`. -/
  | registerRoute (key : String) (chan : Nat)
  /-- `task_tracker.spawn(start_partition_writer ...)` for partition
  `index` of `topicName`, as task id `task`. -/
  | spawnWriter (task : Nat) (topicName : String) (index : Nat)
  /-- `self.topics.insert(name, topic)`. -/
  | insertCatalog (t : Topic)
  /-- a successful `reply_tx.send(r)`. -/
  | reply (r : Reply)
  /-- `task_tracker.close()`. -/
  | closeTracker
  /-- `task_tracker.wait().await` resolving: every tracked task joined. -/
  | waitTracker
deriving DecidableEq

/-- `reply_tx.send(r).unwrap()`: panics when the receiver is gone. -/
def sendReply (reply_open : Bool) (r : Reply) : Except Panic (List Event) :=
  if reply_open then .ok [Event.reply r] else .error Panic.sendErr

/-- `format!("\x7b\x7d-\x7b\x7d", topic_name, partition_index)`. -/
def partitionKey (name : String) (i : Nat) : String :=
  s!"{name}-{i}"

/-! ## `TopicsManager::create_topic` -/

/-- One iteration of the partition loop in `create_topic`: allocate a
fresh channel, register its send end in the routing table under
`"\x7bname\x7d-\x7bindex\x7d"`, and spawn a partition writer tracked by
the task registry. -/
def createPartition (topicName : String) (i : Nat) (st : TMState) :
    TMState × List Event :=
  let partition_name := partitionKey topicName i
  let chan := st.next_chan
  let task := st.next_task
  ({ st with
      partition_client_tx := st.partition_client_tx.insert partition_name chan
      next_chan := chan + 1
      tracker_tasks := st.tracker_tasks ++ [task]
      next_task := task + 1 },
   [Event.registerRoute partition_name chan, Event.spawnWriter task topicName i])

/-- `for partition_index in i .. i+fuel`: the partition loop of
`create_topic`, processing `fuel` consecutive indices starting at `i`. -/
def createPartitions (topicName : String) (i : Nat) (st : TMState) :
    Nat → TMState × List Event
  | 0 => (st, [])
  | fuel + 1 =>
      let p := createPartition topicName i st
      let q := createPartitions topicName (i + 1) p.1 fuel
      (q.1, p.2 ++ q.2)

/-- `TopicsManager::create_topic`.  If the name is already in the
catalog, reply with the stored record and change nothing; otherwise
unwrap `num_partitions` (panicking on `None`), run the partition loop
over `0..num_partitions`, insert the topic into the catalog, and reply
with it. -/
def create_topic (st : TMState) (topic : Topic) (reply_open : Bool) :
    Except Panic (TMState × List Event) :=
  let topic_name := topic.name
  if st.topics.contains topic_name then
    match st.topics.get? topic_name with
    | some existing =>
        match sendReply reply_open (.topicReply (some existing)) with
        | .ok evs => .ok (st, evs)
        | .error p => .error p
    | none => .error Panic.unwrapNone
  else
    match topic.num_partitions with
    | none => .error Panic.unwrapNone
    | some np =>
        let r := createPartitions topic_name 0 st np
        let st' := { r.1 with topics := r.1.topics.insert topic_name topic }
        match sendReply reply_open (.topicReply (some topic)) with
        | .ok evs => .ok (st', r.2 ++ [Event.insertCatalog topic] ++ evs)
        | .error p => .error p

/-! ## `GetPartitionManagerTx` and `GetTopicInfo` arms -/

/-- The partition-index computation in the `GetPartitionManagerTx` arm:
with a key, hash the key's bytes, `unwrap` the catalog entry and its
`num_partitions`, take the hash modulo the partition count and cast the
`u64` result to `u8`; with no key, index 0. -/
def computePartitionIndex (st : TMState) (topic_name : String)
    (message_key : Option String) : Except Panic Nat :=
  match message_key with
  | none => .ok 0
  | some key =>
      match st.topics.get? topic_name with
      | none => .error Panic.unwrapNone
      | some topic =>
          match topic.num_partitions with
          | none => .error Panic.unwrapNone
          | some np =>
              if np = 0 then .error Panic.remainderByZero
              else .ok ((sipHash13 (utf8Bytes key) % np) % 256)

/-- The `GetPartitionManagerTx` arm of the command loop: compute the
partition index, look up `"\x7bname\x7d-\x7bindex\x7d"` in the routing
table, and reply with the sender if present, `None` otherwise. -/
def getPartitionManagerTx (st : TMState) (topic_name : String)
    (message_key : Option String) (reply_open : Bool) :
    Except Panic (TMState × List Event) :=
  match computePartitionIndex st topic_name message_key with
  | .error p => .error p
  | .ok partition_index =>
      let partition_name := partitionKey topic_name partition_index
      if st.partition_client_tx.contains partition_name then
        match st.partition_client_tx.get? partition_name with
        | some client_tx =>
            match sendReply reply_open (.txReply (some client_tx)) with
            | .ok evs => .ok (st, evs)
            | .error p => .error p
        | none => .error Panic.unwrapNone
      else
        match sendReply reply_open (.txReply none) with
        | .ok evs => .ok (st, evs)
        | .error p => .error p

/-- The `GetTopicInfo` arm of the command loop: reply with the cloned
catalog entry when present, `None` otherwise; no state change. -/
def getTopicInfo (st : TMState) (topic_name : String) (reply_open : Bool) :
    Except Panic (TMState × List Event) :=
  if st.topics.contains topic_name then
    match sendReply reply_open (.topicReply (st.topics.get? topic_name)) with
    | .ok evs => .ok (st, evs)
    | .error p => .error p
  else
    match sendReply reply_open (.topicReply none) with
    | .ok evs => .ok (st, evs)
    | .error p => .error p

/-! ## The command loop of `start_topics_manager` -/

/-- Dispatch of one received command inside the `select!` loop. -/
def processCommand (st : TMState) :
    TopicManagerCommands → Except Panic (TMState × List Event)
  | .CreateTopic topic reply_open => create_topic st topic reply_open
  | .GetTopicInfo topic_name reply_open => getTopicInfo st topic_name reply_open
  | .GetPartitionManagerTx topic_name message_key reply_open =>
      getPartitionManagerTx st topic_name message_key reply_open

/-- What the `select!` in the loop observes on one iteration: a command
received from `parent_rx`, or the cancellation token firing. -/
inductive LoopEvent where
  | recv (c : TopicManagerCommands)
  | cancelled
deriving DecidableEq

/-- `start_topics_manager`'s loop, run over a schedule of observations.
On a received command it dispatches and continues; on cancellation it
closes the task tracker, awaits `wait()` (joining every tracked task) and
breaks, ignoring everything after; an exhausted schedule means the loop
is still parked on the `select!`.  A panic in an arm kills the task. -/
def runLoop (st : TMState) : List LoopEvent → Except Panic (TMState × List Event)
  | [] => .ok (st, [])
  | .cancelled :: _ =>
      .ok ({ st with
              tracker_closed := true
              tracker_tasks := []
              joined_tasks := st.joined_tasks ++ st.tracker_tasks },
           [Event.closeTracker, Event.waitTracker])
  | .recv c :: rest =>
      match processCommand st c with
      | .error p => .error p
      | .ok (st', evs) =>
          match runLoop st' rest with
          | .error p => .error p
          | .ok (st'', evs') => .ok (st'', evs ++ evs')

/-! ## Concrete fixtures used to instantiate the theorems -/

/-- The topic of the unit test in `topics_manager.rs`, with two partitions. -/
def exTopic : Topic := ⟨"test_topic", some 2, some 1, some 1, some 2⟩

/-- A topic whose `num_partitions` is `Some(0)`. -/
def exTopicZero : Topic := ⟨"zero_topic", some 0, none, none, none⟩

/-- A topic whose `num_partitions` is `None`. -/
def exTopicBad : Topic := ⟨"bad_topic", none, none, none, none⟩

/-- The manager state after creating `exTopic` from `initialState`. -/
def exState : TMState :=
  { topics := [("test_topic", exTopic)]
    partition_client_tx := [("test_topic-1", 1), ("test_topic-0", 0)]
    tracker_tasks := [0, 1]
    joined_tasks := []
    tracker_closed := false
    next_chan := 2
    next_task := 2 }

/-- A state whose catalog holds `exTopicZero` and whose routing table is
empty. -/
def exStateZ : TMState :=
  { topics := [("zero_topic", exTopicZero)]
    partition_client_tx := []
    tracker_tasks := []
    joined_tasks := []
    tracker_closed := false
    next_chan := 0
    next_task := 0 }

/-- A second state containing `exTopic` under the same name but otherwise
different everywhere, for the cross-run determinism instance. -/
def exStateB : TMState :=
  { topics := [("zero_topic", exTopicZero), ("test_topic", exTopic)]
    partition_client_tx := []
    tracker_tasks := [5]
    joined_tasks := [7]
    tracker_closed := true
    next_chan := 9
    next_task := 9 }

/-- The event trace of creating `exTopic` from `initialState`. -/
def exEvents : List Event :=
  [Event.registerRoute "test_topic-0" 0, Event.spawnWriter 0 "test_topic" 0,
   Event.registerRoute "test_topic-1" 1, Event.spawnWriter 1 "test_topic" 1,
   Event.insertCatalog exTopic, Event.reply (Reply.topicReply (some exTopic))]

/-! ## Basic lemmas about the map model -/

theorem SMap.get?_insert_self {α : Type} (m : SMap α) (k : String) (v : α) :
    (m.insert k v).get? k = some v := by
  simp [SMap.insert, SMap.get?]

theorem SMap.erase_cons_self {α : Type} (a : String) (v : α) (rest : SMap α)
    {k : String} (hak : a = k) :
    SMap.erase ((a, v) :: rest) k = SMap.erase rest k := by
  simp [SMap.erase, List.filter_cons, hak]

theorem SMap.erase_cons_ne {α : Type} (a : String) (v : α) (rest : SMap α)
    {k : String} (hak : a ≠ k) :
    SMap.erase ((a, v) :: rest) k = (a, v) :: SMap.erase rest k := by
  simp [SMap.erase, List.filter_cons, hak]

theorem SMap.get?_erase_ne {α : Type} (m : SMap α) {k k' : String} (h : k' ≠ k) :
    (m.erase k).get? k' = m.get? k' := by
  induction m with
  | nil => rfl
  | cons p rest ih =>
    obtain ⟨a, v⟩ := p
    by_cases hak : a = k
    · have ha' : a ≠ k' := fun e => h (hak ▸ e ▸ rfl)
      rw [SMap.erase_cons_self a v rest hak, ih]
      simp [SMap.get?, ha']
    · rw [SMap.erase_cons_ne a v rest hak]
      simp only [SMap.get?]
      rw [ih]

theorem SMap.get?_insert_ne {α : Type} (m : SMap α) {k k' : String} (v : α)
    (h : k' ≠ k) : (m.insert k v).get? k' = m.get? k' := by
  simp only [SMap.insert, SMap.get?]
  rw [if_neg (fun e => h e.symm)]
  exact SMap.get?_erase_ne m h

theorem SMap.count_cons {α : Type} (a : String) (v : α) (rest : SMap α)
    (k : String) :
    SMap.count ((a, v) :: rest) k
      = SMap.count rest k + (if a = k then 1 else 0) := by
  simp [SMap.count, List.countP_cons]

theorem SMap.count_erase_ne {α : Type} (m : SMap α) {k k' : String} (h : k' ≠ k) :
    (m.erase k).count k' = m.count k' := by
  induction m with
  | nil => rfl
  | cons p rest ih =>
    obtain ⟨a, v⟩ := p
    by_cases hak : a = k
    · have ha' : ¬ a = k' := fun e => h (hak ▸ e ▸ rfl)
      rw [SMap.erase_cons_self a v rest hak, ih, SMap.count_cons]
      simp [ha']
    · rw [SMap.erase_cons_ne a v rest hak, SMap.count_cons, SMap.count_cons, ih]

theorem SMap.count_erase_self {α : Type} (m : SMap α) (k : String) :
    (m.erase k).count k = 0 := by
  simp only [SMap.erase, SMap.count]
  rw [List.countP_eq_zero]
  intro p hp
  have := List.of_mem_filter hp
  simp only [decide_eq_true_eq] at this ⊢
  exact fun e => this e

theorem SMap.count_insert_self {α : Type} (m : SMap α) (k : String) (v : α) :
    (m.insert k v).count k = 1 := by
  simp only [SMap.insert, SMap.count, List.countP_cons]
  have := SMap.count_erase_self m k
  simp only [SMap.count] at this
  simp [this]

theorem SMap.count_insert_ne {α : Type} (m : SMap α) {k k' : String} (v : α)
    (h : k' ≠ k) : (m.insert k v).count k' = m.count k' := by
  simp only [SMap.insert, SMap.count, List.countP_cons]
  have hne : ¬ k = k' := fun e => h e.symm
  have := SMap.count_erase_ne m h
  simp only [SMap.count] at this
  simp [this, hne]

theorem SMap.contains_iff {α : Type} (m : SMap α) (k : String) :
    m.contains k = true ↔ ∃ v, m.get? k = some v := by
  simp [SMap.contains, Option.isSome_iff_exists]

/-! ## Injectivity of the partition-name format

`format!("\x7b\x7d-\x7b\x7d", name, index)` is injective in the index for
a fixed topic name, because the decimal digits of distinct numbers
differ.  Proved by giving the decimal value of `Nat.toDigitsCore`'s
output. -/

/-- Numeric value of a decimal digit character. -/
def digitVal (c : Char) : Nat := c.toNat - 48

/-- Value of a decimal digit string (most significant first). -/
def val10 (cs : List Char) : Nat :=
  cs.foldl (fun a c => 10 * a + digitVal c) 0

theorem toDigitsCore_acc (fuel n : Nat) (ds : List Char) :
    Nat.toDigitsCore 10 fuel n ds = Nat.toDigitsCore 10 fuel n [] ++ ds := by
  induction fuel generalizing n ds with
  | zero => simp [Nat.toDigitsCore]
  | succ f ih =>
    simp only [Nat.toDigitsCore]
    by_cases h : n / 10 = 0
    · simp [h]
    · simp only [h, if_false]
      rw [ih (n / 10) (Nat.digitChar (n % 10) :: ds), ih (n / 10) [Nat.digitChar (n % 10)]]
      simp

theorem val10_append_digit (cs : List Char) (c : Char) :
    val10 (cs ++ [c]) = 10 * val10 cs + digitVal c := by
  simp [val10, List.foldl_append]

theorem val10_toDigitsCore (fuel n : Nat) (h : n < fuel) :
    val10 (Nat.toDigitsCore 10 fuel n []) = n := by
  induction fuel generalizing n with
  | zero => omega
  | succ f ih =>
    simp only [Nat.toDigitsCore]
    have hdig : digitVal (Nat.digitChar (n % 10)) = n % 10 := by
      have hall := (by decide : ∀ d < 10, digitVal (Nat.digitChar d) = d)
      exact hall _ (Nat.mod_lt _ (by norm_num))
    by_cases h0 : n / 10 = 0
    · have hn : n < 10 := by omega
      simp [h0, val10, hdig]
      omega
    · simp only [h0, if_false]
      rw [toDigitsCore_acc, val10_append_digit]
      have hd : n / 10 < f := by
        have h1 : n / 10 < n := Nat.div_lt_self (by omega) (by norm_num)
        omega
      rw [ih _ hd, hdig]
      omega

theorem val10_repr (n : Nat) : val10 (Nat.repr n).data = n := by
  show val10 (Nat.toDigits 10 n).asString.data = n
  rw [Nat.toDigits]
  have h : ((Nat.toDigitsCore 10 (n + 1) n []).asString).data
      = Nat.toDigitsCore 10 (n + 1) n [] := rfl
  rw [h]
  exact val10_toDigitsCore _ _ (Nat.lt_succ_self n)

theorem repr_inj {m n : Nat} (h : Nat.repr m = Nat.repr n) : m = n := by
  have := congrArg (fun s => val10 s.data) h
  simpa [val10_repr] using this

theorem partitionKey_data (name : String) (i : Nat) :
    (partitionKey name i).data = name.data ++ ('-' :: (Nat.repr i).data) := by
  simp [partitionKey, toString]

theorem partitionKey_inj {name : String} {i j : Nat}
    (h : partitionKey name i = partitionKey name j) : i = j := by
  have hd := congrArg String.data h
  rw [partitionKey_data, partitionKey_data] at hd
  have htl := List.append_cancel_left hd
  have hr : (Nat.repr i).data = (Nat.repr j).data := by injection htl
  apply repr_inj
  cases hri : Nat.repr i with
  | mk d1 =>
    cases hrj : Nat.repr j with
    | mk d2 =>
      rw [hri, hrj] at hr
      simp only [] at hr
      simp [hr]

/-! ## Invariants of the partition-creation loop -/

theorem cp_frame (name : String) (f : Nat) : ∀ (i : Nat) (st : TMState),
    (createPartitions name i st f).1.topics = st.topics ∧
    (createPartitions name i st f).1.next_chan = st.next_chan + f ∧
    (createPartitions name i st f).1.next_task = st.next_task + f ∧
    (createPartitions name i st f).1.tracker_closed = st.tracker_closed ∧
    (createPartitions name i st f).1.joined_tasks = st.joined_tasks := by
  induction f with
  | zero => intro i st; simp [createPartitions]
  | succ f ih =>
    intro i st
    simp only [createPartitions, createPartition]
    obtain ⟨h1, h2, h3, h4, h5⟩ := ih (i + 1) _
    refine ⟨h1.trans rfl, ?_, ?_, h4.trans rfl, h5.trans rfl⟩
    · rw [h2]; simp; omega
    · rw [h3]; simp; omega

theorem cp_tracker (name : String) (f : Nat) : ∀ (i : Nat) (st : TMState),
    (createPartitions name i st f).1.tracker_tasks
      = st.tracker_tasks ++ (List.range f).map (fun j => st.next_task + j) := by
  induction f with
  | zero => intro i st; simp [createPartitions]
  | succ f ih =>
    intro i st
    simp only [createPartitions, createPartition]
    rw [ih]
    simp only [List.range_succ_eq_map, List.map_cons, List.map_map]
    have he : ((fun j => st.next_task + j) ∘ Nat.succ)
        = (fun j => st.next_task + 1 + j) := funext fun j => by simp [Function.comp]; omega
    simp [he]

theorem cp_events (name : String) (f : Nat) : ∀ (i : Nat) (st : TMState),
    (createPartitions name i st f).2
      = (List.range f).flatMap (fun j =>
          [Event.registerRoute (partitionKey name (i + j)) (st.next_chan + j),
           Event.spawnWriter (st.next_task + j) name (i + j)]) := by
  induction f with
  | zero => intro i st; simp [createPartitions]
  | succ f ih =>
    intro i st
    simp only [createPartitions, createPartition]
    rw [ih]
    simp only [List.range_succ_eq_map, List.flatMap_cons, List.map_map, List.flatMap_map]
    simp only [Nat.add_zero]
    congr 1
    apply List.flatMap_congr
    intro x hx
    have h1 : i + 1 + x = i + x.succ := by omega
    have h2 : st.next_chan + 1 + x = st.next_chan + x.succ := by omega
    have h3 : st.next_task + 1 + x = st.next_task + x.succ := by omega
    rw [h1, h2, h3]

theorem cp_route_other (name : String) (f : Nat) : ∀ (i : Nat) (st : TMState)
    (key : String), (∀ j, j < f → key ≠ partitionKey name (i + j)) →
    (createPartitions name i st f).1.partition_client_tx.get? key
      = st.partition_client_tx.get? key := by
  induction f with
  | zero => intro i st key _; simp [createPartitions]
  | succ f ih =>
    intro i st key hk
    simp only [createPartitions, createPartition]
    rw [ih (i + 1) _ key (fun j hj => by
      have := hk (j + 1) (by omega)
      simpa [Nat.add_assoc, Nat.add_comm 1 j] using this)]
    simp only []
    apply SMap.get?_insert_ne
    have := hk 0 (by omega)
    simpa using this

theorem cp_route_get (name : String) (f : Nat) : ∀ (i : Nat) (st : TMState)
    (j : Nat), j < f →
    (createPartitions name i st f).1.partition_client_tx.get? (partitionKey name (i + j))
      = some (st.next_chan + j) := by
  induction f with
  | zero => intro i st j hj; omega
  | succ f ih =>
    intro i st j hj
    simp only [createPartitions, createPartition]
    match j with
    | 0 =>
      rw [cp_route_other name f (i + 1) _ (partitionKey name (i + 0)) (fun j' hj' => by
        intro he
        have := partitionKey_inj he
        omega)]
      simpa using SMap.get?_insert_self _ _ _
    | j' + 1 =>
      have h1 : i + (j' + 1) = (i + 1) + j' := by omega
      rw [h1, ih (i + 1) _ j' (by omega)]
      simp only []
      congr 1
      omega

theorem cp_count_other (name : String) (f : Nat) : ∀ (i : Nat) (st : TMState)
    (key : String), (∀ j, j < f → key ≠ partitionKey name (i + j)) →
    (createPartitions name i st f).1.partition_client_tx.count key
      = st.partition_client_tx.count key := by
  induction f with
  | zero => intro i st key _; simp [createPartitions]
  | succ f ih =>
    intro i st key hk
    simp only [createPartitions, createPartition]
    rw [ih (i + 1) _ key (fun j hj => by
      have := hk (j + 1) (by omega)
      simpa [Nat.add_assoc, Nat.add_comm 1 j] using this)]
    apply SMap.count_insert_ne
    have := hk 0 (by omega)
    simpa using this

theorem cp_count_get (name : String) (f : Nat) : ∀ (i : Nat) (st : TMState)
    (j : Nat), j < f →
    (createPartitions name i st f).1.partition_client_tx.count (partitionKey name (i + j))
      = 1 := by
  induction f with
  | zero => intro i st j hj; omega
  | succ f ih =>
    intro i st j hj
    simp only [createPartitions, createPartition]
    match j with
    | 0 =>
      rw [cp_count_other name f (i + 1) _ (partitionKey name (i + 0)) (fun j' hj' => by
        intro he
        have := partitionKey_inj he
        omega)]
      simpa using SMap.count_insert_self _ _ _
    | j' + 1 =>
      have h1 : i + (j' + 1) = (i + 1) + j' := by omega
      rw [h1]
      exact ih (i + 1) _ j' (by omega)

/-! ## Further map lemmas -/

theorem contains_eq_false_of_get?_none {α : Type} {m : SMap α} {k : String}
    (h : m.get? k = none) : m.contains k = false := by
  simp [SMap.contains, h]

theorem contains_eq_true_of_get?_some {α : Type} {m : SMap α} {k : String} {v : α}
    (h : m.get? k = some v) : m.contains k = true := by
  simp [SMap.contains, h]

theorem get?_none_of_contains_eq_false {α : Type} {m : SMap α} {k : String}
    (h : m.contains k = false) : m.get? k = none := by
  by_contra hx
  obtain ⟨v, hv⟩ := Option.ne_none_iff_exists'.mp hx
  rw [contains_eq_true_of_get?_some hv] at h
  cases h

theorem SMap.erase_eq_self_of_count_zero {α : Type} {m : SMap α} {k : String}
    (h : m.count k = 0) : m.erase k = m := by
  unfold SMap.erase
  apply List.filter_eq_self.mpr
  intro p hp
  have := List.countP_eq_zero.mp h p hp
  simpa using this

theorem SMap.size_insert_of_count_zero {α : Type} {m : SMap α} {k : String}
    (v : α) (h : m.count k = 0) : (m.insert k v).size = m.size + 1 := by
  show ((k, v) :: m.erase k).length = m.size + 1
  rw [SMap.erase_eq_self_of_count_zero h]
  rfl

/-! ## More facts about the partition-creation loop -/

theorem cp_size (name : String) (f : Nat) : ∀ (i : Nat) (st : TMState),
    (∀ j, j < f → st.partition_client_tx.count (partitionKey name (i + j)) = 0) →
    (createPartitions name i st f).1.partition_client_tx.size
      = st.partition_client_tx.size + f := by
  induction f with
  | zero => intro i st _; simp [createPartitions]
  | succ f ih =>
    intro i st habs
    simp only [createPartitions, createPartition]
    have hstep : ∀ j, j < f →
        ((st.partition_client_tx.insert (partitionKey name i) st.next_chan).count
          (partitionKey name (i + 1 + j))) = 0 := by
      intro j hj
      have hne : partitionKey name (i + 1 + j) ≠ partitionKey name i := fun he => by
        have := partitionKey_inj he
        omega
      rw [SMap.count_insert_ne _ _ hne]
      have := habs (j + 1) (by omega)
      simpa [Nat.add_assoc, Nat.add_comm 1 j] using this
    rw [ih (i + 1) _ hstep]
    have h0 : st.partition_client_tx.count (partitionKey name i) = 0 := by
      simpa using habs 0 (by omega)
    rw [SMap.size_insert_of_count_zero _ h0]
    omega

theorem cp_no_reply (name : String) (f i : Nat) (st : TMState) (r : Reply) :
    Event.reply r ∉ (createPartitions name i st f).2 := by
  rw [cp_events]
  simp [List.mem_flatMap]

/-! ## Branch equations for `create_topic` -/

theorem create_topic_existing {st : TMState} {t e : Topic}
    (h : st.topics.get? t.name = some e) (ro : Bool) :
    create_topic st t ro
      = if ro then .ok (st, [Event.reply (Reply.topicReply (some e))])
        else .error Panic.sendErr := by
  simp only [create_topic]
  rw [contains_eq_true_of_get?_some h]
  simp only [if_true, h, sendReply]
  by_cases hro : ro <;> simp [hro]

theorem create_topic_new {st : TMState} {t : Topic} {np : Nat}
    (h : st.topics.get? t.name = none) (hnp : t.num_partitions = some np) :
    create_topic st t true
      = .ok ({ (createPartitions t.name 0 st np).1 with
                topics := (createPartitions t.name 0 st np).1.topics.insert t.name t },
             (createPartitions t.name 0 st np).2
               ++ [Event.insertCatalog t] ++ [Event.reply (Reply.topicReply (some t))]) := by
  simp only [create_topic]
  rw [contains_eq_false_of_get?_none h]
  simp [hnp, sendReply]

/-! ## The claims -/

/-- C1 (amended).  For a `GetPartitionManagerTx` command with a live reply
channel: with no message key, the manager always replies with the routing
table's entry for `"\x7bname\x7d-0"` (in particular an explicit `None`
when that entry is unpopulated) and never panics; with a key, it does the
same for the hashed index provided the topic is in the catalog with a
nonzero `Some` partition count; but when a key is supplied for a topic
name not in the catalog, processing panics at the `unwrap` of the catalog
lookup instead of replying. -/
theorem routing_lookup_behaviour :
    (∀ (st : TMState) (name : String),
      getPartitionManagerTx st name none true
        = .ok (st, [Event.reply (Reply.txReply
            (st.partition_client_tx.get? (partitionKey name 0)))])) ∧
    (∀ (st : TMState) (name key : String) (t : Topic) (np : Nat),
      st.topics.get? name = some t → t.num_partitions = some np → np ≠ 0 →
      getPartitionManagerTx st name (some key) true
        = .ok (st, [Event.reply (Reply.txReply (st.partition_client_tx.get?
            (partitionKey name ((sipHash13 (utf8Bytes key) % np) % 256))))])) ∧
    (∀ (st : TMState) (name key : String) (ro : Bool),
      st.topics.get? name = none →
      getPartitionManagerTx st name (some key) ro = .error Panic.unwrapNone) := by
  refine ⟨?_, ?_, ?_⟩
  · intro st name
    simp only [getPartitionManagerTx, computePartitionIndex]
    by_cases h : st.partition_client_tx.contains (partitionKey name 0)
    · obtain ⟨c, hc⟩ := (SMap.contains_iff _ _).mp h
      simp [h, hc, sendReply]
    · simp [h, get?_none_of_contains_eq_false (by simpa using h), sendReply]
  · intro st name key t np h1 h2 h3
    simp only [getPartitionManagerTx, computePartitionIndex, h1, h2, if_neg h3]
    by_cases h : st.partition_client_tx.contains
        (partitionKey name ((sipHash13 (utf8Bytes key) % np) % 256))
    · obtain ⟨c, hc⟩ := (SMap.contains_iff _ _).mp h
      simp [h, hc, sendReply]
    · simp [h, get?_none_of_contains_eq_false (by simpa using h), sendReply]
  · intro st name key ro h1
    simp [getPartitionManagerTx, computePartitionIndex, h1]

/-- C1, witness: the amended routing behaviour at concrete inputs. -/
theorem routing_lookup_behaviour_witness :
    getPartitionManagerTx exState "test_topic" none true
      = .ok (exState, [Event.reply (Reply.txReply
          (exState.partition_client_tx.get? (partitionKey "test_topic" 0)))]) ∧
    getPartitionManagerTx exState "test_topic" (some "dummy_key") true
      = .ok (exState, [Event.reply (Reply.txReply (exState.partition_client_tx.get?
          (partitionKey "test_topic" ((sipHash13 (utf8Bytes "dummy_key") % 2) % 256))))]) ∧
    getPartitionManagerTx initialState "missing_topic" (some "k") true
      = .error Panic.unwrapNone :=
  ⟨routing_lookup_behaviour.1 exState "test_topic",
   routing_lookup_behaviour.2.1 exState "test_topic" "dummy_key" exTopic 2
     (by decide) (by decide) (by decide),
   routing_lookup_behaviour.2.2 initialState "missing_topic" "k" true (by decide)⟩

/-- C1, counterexample to the claim as stated: supplying a key for a topic
name that is not in the catalog makes the `GetPartitionManagerTx` arm
panic (`unwrap` of the catalog lookup) rather than reply `None`. -/
theorem keyed_lookup_unknown_topic_panics :
    getPartitionManagerTx initialState "test_topic" (some "dummy_key") true
      = .error Panic.unwrapNone := rfl

/-- C2.  CreateTopic is idempotent: when the name is already in the
catalog the command replies with the stored record and the state — the
catalog, the routing table, the task registry, the id counters — is
returned unchanged; consequently, creating a fresh topic and then
creating it again replies with the same record both times, and in total
exactly `num_partitions` writer tasks and routing entries (one per
partition index) exist. -/
theorem createTopic_idempotent :
    (∀ (st : TMState) (t e : Topic),
      st.topics.get? t.name = some e →
      create_topic st t true = .ok (st, [Event.reply (Reply.topicReply (some e))])) ∧
    (∀ (st : TMState) (t : Topic) (np : Nat),
      st.topics.get? t.name = none → t.num_partitions = some np →
      (∀ i, i < np → st.partition_client_tx.count (partitionKey t.name i) = 0) →
      ∃ st1 evs1,
        create_topic st t true = .ok (st1, evs1) ∧
        evs1.getLast? = some (Event.reply (Reply.topicReply (some t))) ∧
        create_topic st1 t true = .ok (st1, [Event.reply (Reply.topicReply (some t))]) ∧
        st1.tracker_tasks.length = st.tracker_tasks.length + np ∧
        st1.partition_client_tx.size = st.partition_client_tx.size + np ∧
        (∀ i, i < np → st1.partition_client_tx.count (partitionKey t.name i) = 1)) := by
  constructor
  · intro st t e h
    rw [create_topic_existing h true]
    rfl
  · intro st t np h1 h2 habs
    refine ⟨_, _, create_topic_new h1 h2, ?_, ?_, ?_, ?_, ?_⟩
    · simp
    · have hg : ({ (createPartitions t.name 0 st np).1 with
          topics := (createPartitions t.name 0 st np).1.topics.insert t.name t } :
            TMState).topics.get? t.name = some t := SMap.get?_insert_self _ _ _
      rw [create_topic_existing hg true]
      rfl
    · show ((createPartitions t.name 0 st np).1.tracker_tasks).length
        = st.tracker_tasks.length + np
      rw [cp_tracker]
      simp
    · show ((createPartitions t.name 0 st np).1.partition_client_tx).size
        = st.partition_client_tx.size + np
      exact cp_size t.name np 0 st (fun j hj => by simpa using habs j hj)
    · intro i hi
      show ((createPartitions t.name 0 st np).1.partition_client_tx).count
        (partitionKey t.name i) = 1
      have := cp_count_get t.name np 0 st i hi
      simpa using this

/-- C2, witness: creating `exTopic` twice from the initial state. -/
theorem createTopic_idempotent_witness :
    create_topic exState exTopic true
      = .ok (exState, [Event.reply (Reply.topicReply (some exTopic))]) ∧
    (∃ st1 evs1,
      create_topic initialState exTopic true = .ok (st1, evs1) ∧
      evs1.getLast? = some (Event.reply (Reply.topicReply (some exTopic))) ∧
      create_topic st1 exTopic true
        = .ok (st1, [Event.reply (Reply.topicReply (some exTopic))]) ∧
      st1.tracker_tasks.length = initialState.tracker_tasks.length + 2 ∧
      st1.partition_client_tx.size = initialState.partition_client_tx.size + 2 ∧
      (∀ i, i < 2 → st1.partition_client_tx.count (partitionKey exTopic.name i) = 1)) :=
  ⟨createTopic_idempotent.1 exState exTopic exTopic (by decide),
   createTopic_idempotent.2 initialState exTopic 2 (by decide) (by decide) (by decide)⟩

/-- C3.  Partition routing is deterministic: the keyed index is computed
from the key's bytes and the topic's partition count alone, so two runs
of the lookup against states agreeing on that topic's partition count
produce the same result; for a catalogued topic with partition count
`np` (nonzero, and within the `u8` range the index is stored in) the
index is exactly `hash(key) mod np`; and a keyless lookup always uses
index 0. -/
theorem routing_deterministic :
    (∀ (st1 st2 : TMState) (name key : String) (t1 t2 : Topic),
      st1.topics.get? name = some t1 → st2.topics.get? name = some t2 →
      t1.num_partitions = t2.num_partitions →
      computePartitionIndex st1 name (some key)
        = computePartitionIndex st2 name (some key)) ∧
    (∀ (st : TMState) (name key : String) (t : Topic) (np : Nat),
      st.topics.get? name = some t → t.num_partitions = some np →
      np ≠ 0 → np ≤ 256 →
      computePartitionIndex st name (some key)
        = .ok (sipHash13 (utf8Bytes key) % np)) ∧
    (∀ (st : TMState) (name : String),
      computePartitionIndex st name none = .ok 0) := by
  refine ⟨?_, ?_, ?_⟩
  · intro st1 st2 name key t1 t2 h1 h2 h3
    simp only [computePartitionIndex, h1, h2, h3]
  · intro st name key t np h1 h2 h3 h4
    simp only [computePartitionIndex, h1, h2, if_neg h3]
    have hlt : sipHash13 (utf8Bytes key) % np < 256 :=
      lt_of_lt_of_le (Nat.mod_lt _ (Nat.pos_of_ne_zero h3)) h4
    rw [Nat.mod_eq_of_lt hlt]
  · intro st name
    rfl

/-- C3, witness: the lookup for `"dummy_key"` agrees across two unrelated
states holding `exTopic`, equals the hash mod 2, and the keyless index
is 0. -/
theorem routing_deterministic_witness :
    computePartitionIndex exState "test_topic" (some "dummy_key")
      = computePartitionIndex exStateB "test_topic" (some "dummy_key") ∧
    computePartitionIndex exState "test_topic" (some "dummy_key")
      = .ok (sipHash13 (utf8Bytes "dummy_key") % 2) ∧
    computePartitionIndex exState "test_topic" none = .ok 0 :=
  ⟨routing_deterministic.1 exState exStateB "test_topic" "dummy_key" exTopic exTopic
     (by decide) (by decide) rfl,
   routing_deterministic.2.1 exState "test_topic" "dummy_key" exTopic 2
     (by decide) (by decide) (by decide) (by decide),
   routing_deterministic.2.2 exState "test_topic"⟩

/-- C4.  Creating a topic not yet in the catalog registers, for each
index `i < num_partitions`, exactly one fresh channel id (the ids
`next_chan`, `next_chan + 1`, …, pairwise distinct) under
`"\x7bname\x7d-\x7bi\x7d"`, appends exactly one writer task per index to
the task registry, and only after all partition events inserts the topic
into the catalog and replies with it; afterwards every index has exactly
one routing-table entry. -/
theorem createTopic_new_topic_shape (st : TMState) (t : Topic) (np : Nat)
    (h1 : st.topics.get? t.name = none) (h2 : t.num_partitions = some np) :
    ∃ st', create_topic st t true
        = .ok (st', ((List.range np).flatMap fun i =>
              [Event.registerRoute (partitionKey t.name i) (st.next_chan + i),
               Event.spawnWriter (st.next_task + i) t.name i])
            ++ [Event.insertCatalog t] ++ [Event.reply (Reply.topicReply (some t))]) ∧
      (∀ i, i < np →
        st'.partition_client_tx.get? (partitionKey t.name i) = some (st.next_chan + i)) ∧
      (∀ i, i < np →
        st'.partition_client_tx.count (partitionKey t.name i) = 1) ∧
      st'.tracker_tasks = st.tracker_tasks ++ (List.range np).map (fun i => st.next_task + i) ∧
      st'.topics.get? t.name = some t := by
  refine ⟨{ (createPartitions t.name 0 st np).1 with
             topics := (createPartitions t.name 0 st np).1.topics.insert t.name t },
          ?_, ?_, ?_, ?_, ?_⟩
  · have hev : (createPartitions t.name 0 st np).2
        = (List.range np).flatMap (fun i =>
            [Event.registerRoute (partitionKey t.name i) (st.next_chan + i),
             Event.spawnWriter (st.next_task + i) t.name i]) := by
      rw [cp_events]
      apply List.flatMap_congr
      intro x hx
      simp
    rw [create_topic_new h1 h2, hev]
  · intro i hi
    show ((createPartitions t.name 0 st np).1.partition_client_tx).get?
      (partitionKey t.name i) = some (st.next_chan + i)
    have := cp_route_get t.name np 0 st i hi
    simpa using this
  · intro i hi
    show ((createPartitions t.name 0 st np).1.partition_client_tx).count
      (partitionKey t.name i) = 1
    have := cp_count_get t.name np 0 st i hi
    simpa using this
  · show (createPartitions t.name 0 st np).1.tracker_tasks
      = st.tracker_tasks ++ (List.range np).map (fun i => st.next_task + i)
    rw [cp_tracker]
  · exact SMap.get?_insert_self _ _ _

/-- C4, witness: the fresh-creation shape for `exTopic` (two partitions)
from the initial state. -/
theorem createTopic_new_topic_shape_witness :
    ∃ st', create_topic initialState exTopic true
        = .ok (st', ((List.range 2).flatMap fun i =>
              [Event.registerRoute (partitionKey exTopic.name i) (initialState.next_chan + i),
               Event.spawnWriter (initialState.next_task + i) exTopic.name i])
            ++ [Event.insertCatalog exTopic]
            ++ [Event.reply (Reply.topicReply (some exTopic))]) ∧
      (∀ i, i < 2 → st'.partition_client_tx.get? (partitionKey exTopic.name i)
          = some (initialState.next_chan + i)) ∧
      (∀ i, i < 2 → st'.partition_client_tx.count (partitionKey exTopic.name i) = 1) ∧
      st'.tracker_tasks = initialState.tracker_tasks
          ++ (List.range 2).map (fun i => initialState.next_task + i) ∧
      st'.topics.get? exTopic.name = some exTopic :=
  createTopic_new_topic_shape initialState exTopic 2 (by decide) (by decide)

/-- C5.  Once the loop observes the cancellation signal it processes no
further commands (whatever is queued after the signal leaves no trace),
closes the child-task registry, and waits for every writer task spawned
into the registry to be joined before `start_topics_manager` returns: the
final state carries no still-running tracked task, and the trace ends
with the close and the completed wait. -/
theorem cancellation_drains_then_returns (st : TMState) (pre post : List LoopEvent)
    (st1 : TMState) (evs1 : List Event)
    (hpre : ∀ e ∈ pre, e ≠ LoopEvent.cancelled)
    (h : runLoop st pre = .ok (st1, evs1)) :
    runLoop st (pre ++ LoopEvent.cancelled :: post)
      = .ok ({ st1 with
                tracker_closed := true
                tracker_tasks := []
                joined_tasks := st1.joined_tasks ++ st1.tracker_tasks },
             evs1 ++ [Event.closeTracker, Event.waitTracker]) := by
  induction pre generalizing st evs1 with
  | nil =>
    simp only [runLoop] at h
    obtain ⟨h1, h2⟩ := by simpa using h
    subst h1; subst h2
    simp [runLoop]
  | cons e pre ih =>
    have he : e ≠ LoopEvent.cancelled := hpre e (by simp)
    match e with
    | .cancelled => exact absurd rfl he
    | .recv c =>
      rw [List.cons_append]
      simp only [runLoop] at h ⊢
      cases hpc : processCommand st c with
      | error p => simp [hpc] at h
      | ok pr =>
        obtain ⟨st', evs⟩ := pr
        simp only [hpc] at h ⊢
        cases hrl : runLoop st' pre with
        | error p => simp [hrl] at h
        | ok pr2 =>
          obtain ⟨st'', evs'⟩ := pr2
          simp only [hrl] at h
          obtain ⟨h1, h2⟩ := by simpa using h
          subst h1; subst h2
          rw [ih st' evs' (fun x hx => hpre x (by simp [hx])) hrl]
          simp

/-- C5, witness: a command before the signal is processed, a command
after it is not, the registry is closed and its tasks are joined. -/
theorem cancellation_drains_then_returns_witness :
    runLoop exState
        ([LoopEvent.recv (.GetTopicInfo "missing" true)]
          ++ LoopEvent.cancelled :: [LoopEvent.recv (.GetTopicInfo "after" true)])
      = .ok ({ exState with
                tracker_closed := true
                tracker_tasks := []
                joined_tasks := exState.joined_tasks ++ exState.tracker_tasks },
             [Event.reply (Reply.topicReply none)]
               ++ [Event.closeTracker, Event.waitTracker]) :=
  cancellation_drains_then_returns exState
    [LoopEvent.recv (.GetTopicInfo "missing" true)]
    [LoopEvent.recv (.GetTopicInfo "after" true)]
    exState [Event.reply (Reply.topicReply none)]
    (by decide) (by decide)

/-- C6 (code bug evidence).  Every arm of the command loop calls
`reply_tx.send(...).unwrap()`, so a reply channel whose receiver was
dropped panics the Topics Manager task instead of being a non-fatal
condition: each of the three commands with a dead reply channel errors
with the send panic, and the loop terminates without processing the
subsequent command. -/
theorem reply_on_dropped_receiver_panics :
    getTopicInfo initialState "test_topic" false = .error Panic.sendErr ∧
    create_topic initialState exTopic false = .error Panic.sendErr ∧
    getPartitionManagerTx initialState "test_topic" none false
      = .error Panic.sendErr ∧
    runLoop initialState [.recv (.GetTopicInfo "test_topic" false),
        .recv (.GetTopicInfo "test_topic" true)]
      = .error Panic.sendErr := by
  refine ⟨rfl, by decide, rfl, rfl⟩

/-- C7.  GetTopicInfo is a pure lookup: it replies with exactly the
catalog's entry for the name (`Some` of the stored record when present,
`None` otherwise) and returns the state unchanged in every component. -/
theorem getTopicInfo_pure (st : TMState) (name : String) :
    getTopicInfo st name true
      = .ok (st, [Event.reply (Reply.topicReply (st.topics.get? name))]) := by
  unfold getTopicInfo sendReply
  by_cases h : st.topics.contains name
  · simp [h]
  · simp [h, get?_none_of_contains_eq_false (by simpa using h)]

/-- C8.  A CreateTopic for a name not in the catalog whose
`num_partitions` is `None` panics at the `unwrap` (before any partition
loop iteration, so nothing is inserted into the catalog or routing
table) and the panic terminates the loop without a reply and without
processing anything queued behind it. -/
theorem createTopic_unwrap_none_panics (st : TMState) (t : Topic) (ro : Bool)
    (rest : List LoopEvent)
    (h1 : st.topics.get? t.name = none) (h2 : t.num_partitions = none) :
    create_topic st t ro = .error Panic.unwrapNone ∧
    runLoop st (.recv (.CreateTopic t ro) :: rest) = .error Panic.unwrapNone := by
  have hct : create_topic st t ro = .error Panic.unwrapNone := by
    simp [create_topic, contains_eq_false_of_get?_none h1, h2]
  exact ⟨hct, by simp [runLoop, processCommand, hct]⟩

/-- C8, witness: `exTopicBad` (no partition count) panics the manager. -/
theorem createTopic_unwrap_none_panics_witness :
    create_topic initialState exTopicBad true = .error Panic.unwrapNone ∧
    runLoop initialState [.recv (.CreateTopic exTopicBad true)]
      = .error Panic.unwrapNone :=
  createTopic_unwrap_none_panics initialState exTopicBad true [] (by decide) (by decide)

/-- C9.  A topic with `num_partitions = Some(0)` is created successfully
(the partition loop is empty, so the catalog gains the topic while no
routing entry and no writer appears), after which every keyed
`GetPartitionManagerTx` for it panics with remainder-by-zero while a
keyless lookup replies `None` without panicking. -/
theorem zero_partitions_scenario :
    (∀ (st : TMState) (t : Topic),
      st.topics.get? t.name = none → t.num_partitions = some 0 →
      create_topic st t true
        = .ok ({ st with topics := st.topics.insert t.name t },
               [Event.insertCatalog t, Event.reply (Reply.topicReply (some t))])) ∧
    (∀ (st : TMState) (name key : String) (t : Topic) (ro : Bool),
      st.topics.get? name = some t → t.num_partitions = some 0 →
      getPartitionManagerTx st name (some key) ro = .error Panic.remainderByZero) ∧
    (∀ (st : TMState) (name : String),
      st.partition_client_tx.contains (partitionKey name 0) = false →
      getPartitionManagerTx st name none true = .ok (st, [Event.reply (Reply.txReply none)])) := by
  refine ⟨?_, ?_, ?_⟩
  · intro st t h1 h2
    rw [create_topic_new h1 h2]
    simp [createPartitions]
  · intro st name key t ro h1 h2
    simp [getPartitionManagerTx, computePartitionIndex, h1, h2]
  · intro st name h
    simp [getPartitionManagerTx, computePartitionIndex, h, sendReply]

/-- C9, witness: the zero-partition scenario at `exTopicZero`. -/
theorem zero_partitions_scenario_witness :
    create_topic initialState exTopicZero true
      = .ok ({ initialState with
                topics := initialState.topics.insert exTopicZero.name exTopicZero },
             [Event.insertCatalog exTopicZero,
              Event.reply (Reply.topicReply (some exTopicZero))]) ∧
    getPartitionManagerTx exStateZ "zero_topic" (some "k") true
      = .error Panic.remainderByZero ∧
    getPartitionManagerTx exStateZ "zero_topic" none true
      = .ok (exStateZ, [Event.reply (Reply.txReply none)]) :=
  ⟨zero_partitions_scenario.1 initialState exTopicZero (by decide) (by decide),
   zero_partitions_scenario.2.1 exStateZ "zero_topic" "k" exTopicZero true
     (by decide) (by decide),
   zero_partitions_scenario.2.2 exStateZ "zero_topic" (by decide)⟩

/-- C10.  Any CreateTopic that completes without panicking ends its trace
with a reply of `Some` topic record — both the already-exists branch and
the new-topic branch — and a `None` reply is never sent for CreateTopic. -/
theorem createTopic_reply_never_none (st : TMState) (t : Topic) (ro : Bool)
    (st' : TMState) (evs : List Event)
    (h : create_topic st t ro = .ok (st', evs)) :
    (∃ rt, evs.getLast? = some (Event.reply (Reply.topicReply (some rt)))) ∧
    Event.reply (Reply.topicReply none) ∉ evs := by
  by_cases hc : st.topics.contains t.name
  · obtain ⟨e, he⟩ := (SMap.contains_iff _ _).mp hc
    rw [create_topic_existing he ro] at h
    by_cases hro : ro
    · simp [hro] at h
      obtain ⟨h1, h2⟩ := h
      subst h2
      exact ⟨⟨e, rfl⟩, by simp⟩
    · simp [hro] at h
  · have hn : st.topics.get? t.name = none := get?_none_of_contains_eq_false (by simpa using hc)
    cases hnp : t.num_partitions with
    | none =>
      simp only [create_topic, contains_eq_false_of_get?_none hn, if_false, hnp] at h
      cases h
    | some np =>
      by_cases hro : ro
      · subst hro
        rw [create_topic_new hn hnp] at h
        obtain ⟨h1, h2⟩ := by simpa using h
        subst h2
        constructor
        · exact ⟨t, by simp⟩
        · intro hmem
          simp only [List.append_assoc, List.mem_append] at hmem
          rcases hmem with hmem | hmem
          · exact cp_no_reply t.name np 0 st _ hmem
          · simp at hmem
      · simp only [create_topic, contains_eq_false_of_get?_none hn, if_false, hnp,
          sendReply, hro] at h
        simp at h

/-- C10, witness: the successful creation of `exTopic` produces the trace
`exEvents`, whose last event replies `Some` and which contains no `None`
topic reply. -/
theorem createTopic_reply_never_none_witness :
    (∃ rt, exEvents.getLast? = some (Event.reply (Reply.topicReply (some rt)))) ∧
    Event.reply (Reply.topicReply none) ∉ exEvents :=
  createTopic_reply_never_none initialState exTopic true exState exEvents (by decide)

end Walrs
